import Mathlib

/-!
Verification development for the locomoset metric-experiment pipeline.

The development shallowly embeds two parts of the code base:

* the PARC metric helpers (`_lower_tri_arr`, `_feature_reduce`, the PARC
  scoring algorithm).  The module `src/locomoset/metrics/parc.py` itself is
  not part of the source tree available here (only its tests are), so these
  definitions are modelled from the specification and from the call contracts
  visible in `tests/test_parc.py`; each such definition carries a doc comment
  starting with `Modelled from the spec:`.
* the experiment orchestrator `ModelMetricsExperiment` and the `run_config`
  driver from `src/locomoset/metrics/experiment.py`, which is present in the
  source tree and is translated statement by statement.  External
  collaborators (dataset loading, model loading, feature extraction, the
  metric registry, wall-clock timing) are passed in as explicit parameters,
  mirroring section 6 of the specification.

Python exceptions are modelled with `Except PyErr`; emitted warnings are
modelled as an explicit boolean; I/O side effects (inference passes, metric
scoring, result persistence) are modelled as an event trace.
-/

/-- Python exception values that the embedded code can raise.  Only the
constructor and the message/attribute payload are relevant to the claims. -/
inductive PyErr : Type
  | valueError (msg : String)
  | notImplementedError (msg : String)
  | attributeError (attr : String)
  | keyError (key : String)
  deriving DecidableEq

/-- Modelled from the spec: a dense 2D numeric array with explicit shape
(`rows` × `cols`); entries outside the shape are irrelevant.  Real numbers
stand in for the floating-point values of the code. -/
structure MatR where
  rows : ℕ
  cols : ℕ
  entry : ℕ → ℕ → ℝ

/-- Modelled from the spec (section 4.2, `_lower_tri_arr` in
`src/locomoset/metrics/parc.py`, absent from the tree): extract the
strictly-upper-triangular entries (excluding the diagonal) of an `n` × `n`
matrix as a flat sequence, row-major: (0,1),(0,2),…,(1,2),… . -/
def lower_tri_arr {α : Type} (n : ℕ) (M : ℕ → ℕ → α) : List α :=
  (List.range n).flatMap (fun i => (List.range' (i+1) (n - (i+1))).map (M i))

/-- Modelled from the spec (section 4.1): the message of the
invalid-dimension `ValueError`. -/
def invalidDimMsg : String :=
  "feat_red_dim must not exceed the minimum dimension of the features"

/-- Modelled from the spec (section 4.1, `_feature_reduce` in
`src/locomoset/metrics/parc.py`, absent from the tree): if no target
dimension is requested return the features unchanged; if the target exceeds
`min(features.shape)` fail with an invalid-dimension `ValueError` (the error
type asserted by `tests/test_parc.py::test_feature_reduce`); otherwise apply
the external PCA projection, which is passed in as the parameter `pca`
(seed → target dimension → matrix → matrix). -/
def feature_reduce (pca : ℕ → ℕ → MatR → MatR) (features : MatR)
    (random_state : ℕ) (f : Option ℕ) : Except PyErr MatR :=
  match f with
  | none => .ok features
  | some fv =>
    if min features.rows features.cols < fv then
      .error (.valueError invalidDimMsg)
    else
      .ok (pca random_state fv features)

/-- Mean of the first `m` values of a sequence (0 when `m = 0`, matching the
convention `x / 0 = 0` of ℝ in Lean). -/
noncomputable def meanS (m : ℕ) (x : ℕ → ℝ) : ℝ :=
  (∑ i in Finset.range m, x i) / m

/-- Unnormalised covariance of two sequences over their first `m` values.
The normalisation constant of the code cancels in the correlation, so it is
omitted. -/
noncomputable def covS (m : ℕ) (x y : ℕ → ℝ) : ℝ :=
  ∑ i in Finset.range m, (x i - meanS m x) * (y i - meanS m y)

/-- Modelled from the spec: Pearson correlation coefficient of two length-`m`
sequences, as computed row-pairwise by `np.corrcoef`. -/
noncomputable def pearson (m : ℕ) (x y : ℕ → ℝ) : ℝ :=
  covS m x y / (Real.sqrt (covS m x x) * Real.sqrt (covS m y y))

/-- Modelled from the spec: the average fractional rank (1-based, ties share
the mean rank) of the `i`-th value among the first `m` values of `x`, as used
by `scipy.stats.spearmanr`. -/
noncomputable def rankAt (m : ℕ) (x : ℕ → ℝ) (i : ℕ) : ℝ :=
  (((Finset.range m).filter (fun j => x j < x i)).card : ℝ)
    + ((((Finset.range m).filter (fun j => x j = x i)).card : ℝ) + 1) / 2

/-- Modelled from the spec: Spearman rank correlation of two length-`m`
sequences: the Pearson correlation of their rank sequences. -/
noncomputable def spearman (m : ℕ) (x y : ℕ → ℝ) : ℝ :=
  pearson m (rankAt m x) (rankAt m y)

/-- Spearman rank correlation of two lists (indexed view, out-of-range
defaults never read for equal-length lists). -/
noncomputable def spearmanL (a b : List ℝ) : ℝ :=
  spearman a.length (fun i => a.getD i 0) (fun i => b.getD i 0)

/-- The one-hot row matrix of a label list: row `i` is the indicator vector
of label `i`, as built by `np.eye(max(labels)+1)[labels]`. -/
def oneHotRow (labels : List ℕ) : ℕ → ℕ → ℝ :=
  fun i k => if labels.getD i 0 = k then 1 else 0

/-- The indicator (standard basis) vector of index `a`. -/
def basisVec (a : ℕ) : ℕ → ℝ :=
  fun k => if a = k then 1 else 0

/-- Modelled from the spec (section 4.3, `PARCMetric.fit_metric` in
`src/locomoset/metrics/parc.py`, absent from the tree).  Steps: one-hot
encode the labels (dimension `max(labels)+1`); optionally standardise the
features (the external scaler is passed in as `scalerFn`, shape preserving);
optionally reduce the features via `feature_reduce`; build the pairwise
correlation-distance structure `1 - corrcoef` among samples for features and
for one-hot labels; extract both strictly-upper-triangular sequences; return
their Spearman rank correlation scaled to 0–100.  A reduction failure is not
caught and propagates. -/
noncomputable def parc_fit_metric (pca : ℕ → ℕ → MatR → MatR)
    (scalerFn : ℕ → ℕ → (ℕ → ℕ → ℝ) → (ℕ → ℕ → ℝ))
    (random_state : ℕ) (feat_red_dim : Option ℕ) (scale_features : Bool)
    (features : MatR) (labels : List ℕ) : Except PyErr ℝ :=
  let oneHotDim := labels.foldr max 0 + 1
  let labelMat := oneHotRow labels
  let scaled : MatR :=
    if scale_features then
      ⟨features.rows, features.cols, scalerFn features.rows features.cols features.entry⟩
    else features
  match feature_reduce pca scaled random_state feat_red_dim with
  | .error e => .error e
  | .ok red =>
    let dist_imgs : ℕ → ℕ → ℝ := fun i j => 1 - pearson red.cols (red.entry i) (red.entry j)
    let dist_labs : ℕ → ℕ → ℝ := fun i j => 1 - pearson oneHotDim (labelMat i) (labelMat j)
    .ok (spearmanL (lower_tri_arr red.rows dist_imgs) (lower_tri_arr labels.length dist_labs) * 100)

/-- Modelled from the spec: the PARC metric strategy object with its
configuration, as constructed by
`PARCMetric(random_state=…, feat_red_dim=…, scale_features=…)`. -/
structure PARCMetric where
  random_state : ℕ
  feat_red_dim : Option ℕ
  scale_features : Bool

/-- Modelled from the spec: PARC declares metric name "parc". -/
def PARCMetric.metric_name (_ : PARCMetric) : String := "parc"

/-- Modelled from the spec: PARC needs model-produced features. -/
def PARCMetric.inference_type (_ : PARCMetric) : Option String := some "features"

/-- Modelled from the spec: the PARC score depends on the labels. -/
def PARCMetric.dataset_dependent (_ : PARCMetric) : Bool := true

/-- Modelled from the spec: `fit_metric(model_input, dataset_input)` for
PARC delegates to the PARC algorithm with the configured parameters. -/
noncomputable def PARCMetric.fit_metric (m : PARCMetric)
    (pca : ℕ → ℕ → MatR → MatR) (scalerFn : ℕ → ℕ → (ℕ → ℕ → ℝ) → (ℕ → ℕ → ℝ))
    (model_input : MatR) (dataset_input : List ℕ) : Except PyErr ℝ :=
  parc_fit_metric pca scalerFn m.random_state m.feat_red_dim m.scale_features
    model_input dataset_input

/-! ## The experiment orchestrator (`src/locomoset/metrics/experiment.py`) -/

/-- One dataset sample: an (image, label) pair.  The image payload is opaque
to the orchestrator, so it is abstracted to a number. -/
structure Sample where
  image : ℕ
  label : ℕ
  deriving DecidableEq

/-- A dataset slice: an ordered sequence of samples. -/
abbrev DS := List Sample

/-- The inference artifact produced by `perform_inference`: either a feature
matrix (one row per dataset sample) or the loaded model (opaque token). -/
inductive Artifact : Type
  | features (rows : List (List ℝ))
  | model (m : ℕ)

/-- A metric object as produced by the registry `METRICS[name](…)`: its
declared `inference_type` and its `fit_metric` behaviour
(model_input → dataset_input → score). -/
structure MetricObj where
  inference_type : Option String
  fit : Option Artifact → List ℕ → ℝ

/-- Observable side effects of a run, in order: the two kinds of inference
work, metric scoring, JSON persistence, and the tracking-sink push. -/
inductive Event : Type
  | featuresInference
  | modelInference
  | scored (name : String)
  | saved (path : String)
  | wandbLogged
  deriving DecidableEq

/-- The dataset selection arguments of the configuration
(`config.dataset_args`). -/
structure DatasetArgs where
  image_field : String
  label_field : String
  keep_labels : List ℕ
  train_split : String
  val_split : Option String
  test_split : Option String
  val_size : ℕ
  test_size : ℕ
  deriving DecidableEq

/-- The per-run metric configuration (`MetricConfig`), restricted to the
fields the orchestrator reads. `caches` is `None` or a string-keyed mapping. -/
structure MetricConfigL where
  model_name : String
  dataset_name : String
  dataset_args : DatasetArgs
  n_samples : ℕ
  metrics_samples : ℕ
  random_state : ℕ
  metrics : List String
  caches : Option (List (String × String))
  save_dir : String
  device : String
  local_save : Bool
  use_wandb : Bool
  deriving DecidableEq

/-- The results record (`self.results`): a copy of the run configuration
(`config.to_dict()`) plus the two additively grown tables
`inference_times` (keyed by inference type) and
`metric_scores` (metric name ↦ (score, time)). -/
structure Results where
  config : MetricConfigL
  inference_times : List (Option String × ℝ)
  metric_scores : List (String × (ℝ × ℝ))

/-- The external collaborators of the orchestrator (section 6 of the spec),
passed explicitly: dataset provider, model provider, metric registry,
wall-clock timer and timestamp.  `getFeaturesRow` is modelled from the spec
contract of `get_features`: the feature matrix has one row per dataset
sample, in matching order, so it is determined by a per-sample row function
of the model. -/
structure Collab where
  loadDataset : String → String → String → String → List ℕ → Except PyErr DS
  createSplits : DS → String → Option String → Option String → ℕ → ℕ → ℕ →
    Except PyErr (List (String × DS))
  dropImages : DS → ℕ → ℕ → Option String → Except PyErr DS
  registry : String → Option MetricObj
  getFeaturesRow : String → Sample → List ℝ
  modelOf : String → ℕ
  inferenceTime : Option String → ℝ
  metricTime : String → ℝ
  nowStr : String
  cudaAvailable : Bool

/-- The state of a constructed `ModelMetricsExperiment`: one field per
attribute assigned in `__init__` that the rest of the class reads.
`dataset_cache`/`model_cache` are `none` when the attribute was never
assigned (reading them then raises `AttributeError`). -/
structure ExpState where
  model_name : String
  random_state : ℕ
  metrics : List (String × MetricObj)
  inference_types : List (Option String)
  dataset_cache : Option String
  model_cache : Option String
  device : String
  dataset : DS
  labels : List ℕ
  results : Results
  save_path : String

/-- Reading a Python attribute that may never have been assigned:
`AttributeError` when unset. -/
def readAttr {α : Type} (a : Option α) (attr : String) : Except PyErr α :=
  match a with
  | some v => .ok v
  | none => .error (.attributeError attr)

/-- Python dict subscript access: `KeyError` when the key is absent. -/
def lookupKey (d : List (String × String)) (k : String) : Except PyErr String :=
  match d.lookup k with
  | some v => .ok v
  | none => .error (.keyError k)

/-- The dict comprehension `{m: METRICS[m](…) for m in config.metrics}`:
keys are deduplicated (Python dict semantics); an unknown metric name raises
`KeyError` from the registry lookup. -/
def buildMetrics (registry : String → Option MetricObj) :
    List String → Except PyErr (List (String × MetricObj))
  | [] => .ok []
  | n :: rest =>
    match registry n with
    | none => .error (.keyError n)
    | some obj =>
      match buildMetrics registry rest with
      | .error e => .error e
      | .ok ms => .ok ((n, obj) :: ms)

/-- Lines 69–71: when `config.caches` is not `None`, assign
`self.dataset_cache = config.caches["datasets"]` and
`self.model_cache = config.caches["models"]`; otherwise leave both
attributes unassigned. -/
def resolveCaches (caches : Option (List (String × String))) :
    Except PyErr (Option String × Option String) :=
  match caches with
  | none => .ok (none, none)
  | some d =>
    match lookupKey d "datasets" with
    | .error e => .error e
    | .ok dc =>
      match lookupKey d "models" with
      | .error e => .error e
      | .ok mc => .ok (some dc, some mc)

/-- Lines 81–109: load the dataset (which reads `self.dataset_cache`),
create the splits, take the train split (dict access), and subset it to
`n_samples` with the default label stratification of `drop_images`. -/
def prepareTrainSet (C : Collab) (cfg : MetricConfigL) (cacheDir : String) :
    Except PyErr DS :=
  match C.loadDataset cfg.dataset_name cfg.dataset_args.image_field
      cfg.dataset_args.label_field cacheDir cfg.dataset_args.keep_labels with
  | .error e => .error e
  | .ok ds0 =>
    match C.createSplits ds0 cfg.dataset_args.train_split cfg.dataset_args.val_split
        cfg.dataset_args.test_split cfg.random_state cfg.dataset_args.val_size
        cfg.dataset_args.test_size with
    | .error e => .error e
    | .ok splits =>
      match splits.lookup cfg.dataset_args.train_split with
      | none => .error (.keyError cfg.dataset_args.train_split)
      | some ds1 => C.dropImages ds1 cfg.n_samples cfg.random_state (some "label")

/-- The recognised start of the stratification error message
(line 120–122 of `experiment.py`). -/
def stratMsgStart : String :=
  "The least populated class in label column has only 1 member"

/-- Python `str.startswith`, modelled on the character data of the two
strings. -/
def strStartsWith (s pre : String) : Bool :=
  pre.data.isPrefixOf s.data

/-- The `except ValueError` guard of lines 119–122: only a `ValueError`
whose message starts with `stratMsgStart` is caught. -/
def isStratSingleMemberError : PyErr → Bool
  | .valueError msg => strStartsWith msg stratMsgStart
  | _ => false

/-- Lines 113–135: try the stratified metrics-set subsample; on the specific
single-member-class `ValueError`, warn (boolean output) and retry the same
request without stratification; re-raise any other error.  `drop` is the
pending `drop_images` call, parameterised only by `stratify_by_column`. -/
def subsampleWithFallback (drop : Option String → Except PyErr DS) :
    (Except PyErr DS) × Bool :=
  match drop (some "label") with
  | .ok ds => (.ok ds, false)
  | .error e =>
    if isStratSingleMemberError e then
      (drop none, true)
    else
      (.error e, false)

/-- The state assembled by a successful `__init__`, given the built metric
dict `ms`, the cache attributes, and the final metrics dataset `ds3`. -/
def mkState (C : Collab) (cfg : MetricConfigL) (ms : List (String × MetricObj))
    (dsc mdc : Option String) (ds3 : DS) : ExpState :=
  { model_name := cfg.model_name
    random_state := cfg.random_state
    metrics := ms
    inference_types := (ms.map (fun p => p.2.inference_type)).dedup
    dataset_cache := dsc
    model_cache := mdc
    device := if cfg.device = "cuda" then (if C.cudaAvailable then "cuda" else "cpu") else cfg.device
    dataset := ds3
    labels := ds3.map Sample.label
    results := { config := cfg, inference_times := [], metric_scores := [] }
    save_path := cfg.save_dir ++ "/results_" ++ C.nowStr ++ ".json" }

/-- `ModelMetricsExperiment.__init__` (lines 35–147).  The boolean output
records whether the stratification warning was emitted.  Python's
`list(set(…))` for `self.inference_types` has unspecified order; the model
fixes the canonical deduplication order of `List.dedup`. -/
def constructExperiment (C : Collab) (cfg : MetricConfigL) :
    (Except PyErr ExpState) × Bool :=
  match buildMetrics C.registry cfg.metrics.dedup with
  | .error e => (.error e, false)
  | .ok ms =>
    match resolveCaches cfg.caches with
    | .error e => (.error e, false)
    | .ok cc =>
      match readAttr cc.1 "dataset_cache" with
      | .error e => (.error e, false)
      | .ok cacheDir =>
        match prepareTrainSet C cfg cacheDir with
        | .error e => (.error e, false)
        | .ok ds2 =>
          match subsampleWithFallback
              (fun s => C.dropImages ds2 cfg.metrics_samples cfg.random_state s) with
          | (.error e, w) => (.error e, w)
          | (.ok ds3, w) => (.ok (mkState C cfg ms cc.1 cc.2 ds3), w)

/-- `features_inference` (lines 149–158): read `self.model_cache` (the model
and processor loads), then extract features of the metrics dataset — one row
per sample, in order (spec contract of `get_features`). -/
def features_inference (C : Collab) (st : ExpState) : Except PyErr Artifact :=
  match st.model_cache with
  | none => .error (.attributeError "model_cache")
  | some _ => .ok (.features (st.dataset.map (C.getFeaturesRow st.model_name)))

/-- `model_inference` (lines 160–166): read `self.model_cache` and load the
model with its head removed. -/
def model_inference (C : Collab) (st : ExpState) : Except PyErr Artifact :=
  match st.model_cache with
  | none => .error (.attributeError "model_cache")
  | some _ => .ok (.model (C.modelOf st.model_name))

/-- `perform_inference` (lines 168–194): dispatch on the inference type;
an unknown non-null type raises `NotImplementedError` before any inference
work.  The event list records the inference work actually performed. -/
def perform_inference (C : Collab) (st : ExpState) (inference_type : Option String) :
    (Except PyErr (Option Artifact)) × List Event :=
  match inference_type with
  | some s =>
    if s = "features" then
      match features_inference C st with
      | .error e => (.error e, [])
      | .ok a => (.ok (some a), [Event.featuresInference])
    else if s = "model" then
      match model_inference C st with
      | .error e => (.error e, [])
      | .ok a => (.ok (some a), [Event.modelInference])
    else
      (.error (.notImplementedError ("Not implemented inference for type " ++ s)), [])
  | none => (.ok none, [])

/-- The artifact that a successful inference pass of a given type yields;
all metrics grouped under that type share it. -/
def sharedArtifact (C : Collab) (st : ExpState) (t : Option String) : Option Artifact :=
  match t with
  | some s =>
    if s = "features" then some (.features (st.dataset.map (C.getFeaturesRow st.model_name)))
    else if s = "model" then some (.model (C.modelOf st.model_name))
    else none
  | none => none

/-- `compute_metric_score` (lines 196–219): delegate to the metric's
`fit_metric(model_input, dataset_input)` and time it. -/
def compute_metric_score (C : Collab) (st : ExpState) (p : String × MetricObj)
    (model_input : Option Artifact) : ℝ × ℝ :=
  (p.2.fit model_input st.labels, C.metricTime p.1)

/-- The metrics of the experiment whose declared inference type is `t`
(the `test_metrics` list comprehension of lines 235–239). -/
def groupFor (st : ExpState) (t : Option String) : List (String × MetricObj) :=
  st.metrics.filter (fun p => p.2.inference_type == t)

/-- The `metric_scores` entry appended for one metric scored against a given
artifact. -/
def scoreEntry (C : Collab) (st : ExpState) (model_input : Option Artifact)
    (p : String × MetricObj) : String × (ℝ × ℝ) :=
  (p.1, compute_metric_score C st p model_input)

/-- One iteration of the `run_experiment` loop (lines 229–249) for a single
inference type: perform the inference once, record its time, then score and
record every metric of that group against the shared artifact.  The inner
`for` loop appends one `{score, time}` entry per metric of the group. -/
def runStep (C : Collab) (st : ExpState) (t : Option String) (res : Results) :
    (Except PyErr Results) × List Event :=
  match perform_inference C st t with
  | (.error e, ev) => (.error e, ev)
  | (.ok art, ev) =>
    let res1 : Results :=
      { res with inference_times := res.inference_times ++ [(t, C.inferenceTime t)] }
    let res2 : Results :=
      { res1 with metric_scores :=
          res1.metric_scores ++ (groupFor st t).map (scoreEntry C st art) }
    (.ok res2, ev ++ (groupFor st t).map (fun p => Event.scored p.1))

/-- The `run_experiment` loop over the distinct inference types; an
exception aborts the remaining iterations and propagates. -/
def runLoop (C : Collab) (st : ExpState) :
    List (Option String) → Results → (Except PyErr Results) × List Event
  | [], res => (.ok res, [])
  | t :: ts, res =>
    match runStep C st t res with
    | (.error e, ev) => (.error e, ev)
    | (.ok res1, ev) =>
      match runLoop C st ts res1 with
      | (out, ev2) => (out, ev ++ ev2)

/-- `run_experiment` (lines 221–249): iterate over `self.inference_types`,
mutating `self.results`; the updated experiment state is returned. -/
def run_experiment (C : Collab) (st : ExpState) :
    (Except PyErr ExpState) × List Event :=
  match runLoop C st st.inference_types st.results with
  | (.error e, ev) => (.error e, ev)
  | (.ok res, ev) => (.ok { st with results := res }, ev)

/-- `run_config` (lines 263–297): the `config.caches.get(…)` probe (an
`AttributeError` when `caches` is `None`), construction, the run, then a
single `save_results` when `local_save` is set and the tracking-sink push
when `use_wandb` is set.  Outputs: outcome, warning flag, event trace. -/
def run_config (C : Collab) (cfg : MetricConfigL) :
    (Except PyErr ExpState) × Bool × List Event :=
  match cfg.caches with
  | none => (.error (.attributeError "get"), false, [])
  | some _ =>
    match constructExperiment C cfg with
    | (.error e, w) => (.error e, w, [])
    | (.ok st, w) =>
      match run_experiment C st with
      | (.error e, ev) => (.error e, w, ev)
      | (.ok st1, ev) =>
        (.ok st1, w,
          ev ++ (if cfg.local_save then [Event.saved st1.save_path] else [])
             ++ (if cfg.use_wandb then [Event.wandbLogged] else []))

/-- The invariant linking `self.inference_types` to the metric dict,
established by `__init__` (lines 64–66). -/
def infTypesInv (st : ExpState) : Prop :=
  st.inference_types = (st.metrics.map (fun p => p.2.inference_type)).dedup

/-- The correlation-distance function among samples of a one-hot encoded
label list, as it appears inside the PARC computation. -/
noncomputable def parcDist (L : List ℕ) : ℕ → ℕ → ℝ :=
  fun i j => 1 - pearson (L.foldr max 0 + 1) (oneHotRow L i) (oneHotRow L j)

/-- The strictly-upper-triangular sequence of `parcDist`. -/
noncomputable def parcDistList (L : List ℕ) : List ℝ :=
  lower_tri_arr L.length (parcDist L)

/-! ## Concrete fixtures used by witnesses and counterexamples -/

/-- An identity stand-in for the external PCA projection. -/
def pca0 : ℕ → ℕ → MatR → MatR := fun _ _ M => M

/-- An identity stand-in for the external feature scaler. -/
def scaler0 : ℕ → ℕ → (ℕ → ℕ → ℝ) → (ℕ → ℕ → ℝ) := fun _ _ e => e

/-- A concrete 2 × 2 feature matrix. -/
def F0 : MatR := ⟨2, 2, fun _ _ => 0⟩

/-- A concrete label list with a repeated label and two distinct labels. -/
def L0 : List ℕ := [0, 0, 1]

/-- A concrete three-sample dataset. -/
def sampleDS : DS := [⟨0, 0⟩, ⟨1, 0⟩, ⟨2, 1⟩]

/-- A metric object with no inference requirement. -/
def mObj0 : MetricObj := ⟨none, fun _ _ => 0⟩

/-- A metric object requiring features inference. -/
def featObj0 : MetricObj := ⟨some "features", fun _ _ => 0⟩

/-- A metric object requiring model inference. -/
def modelObj0 : MetricObj := ⟨some "model", fun _ _ => 0⟩

/-- A metric object declaring an inference type the orchestrator does not
implement. -/
def bogusObj0 : MetricObj := ⟨some "bogus", fun _ _ => 0⟩

/-- Benign external collaborators: every call succeeds. -/
def trivialCollab : Collab :=
  { loadDataset := fun _ _ _ _ _ => .ok sampleDS
    createSplits := fun ds _ _ _ _ _ _ => .ok [("train", ds)]
    dropImages := fun ds _ _ _ => .ok ds
    registry := fun _ => some mObj0
    getFeaturesRow := fun _ _ => []
    modelOf := fun _ => 0
    inferenceTime := fun _ => 0
    metricTime := fun _ => 0
    nowStr := "now"
    cudaAvailable := false }

/-- A `drop_images` behaviour whose stratified call fails with the
single-member-class `ValueError` exactly for the metrics-set size 7, and
whose unstratified call succeeds. -/
def stratFailDrop : DS → ℕ → ℕ → Option String → Except PyErr DS :=
  fun ds size _ strat =>
    match strat with
    | some _ => if size = 7 then .error (.valueError stratMsgStart) else .ok ds
    | none => .ok ds

/-- Collaborators triggering the stratification fallback. -/
def stratCollab : Collab := { trivialCollab with dropImages := stratFailDrop }

/-- Concrete dataset arguments. -/
def dargs0 : DatasetArgs := ⟨"image", "label", [], "train", none, none, 0, 0⟩

/-- A concrete runnable configuration (`metrics_samples` 7 matches
`stratFailDrop`). -/
def cfg0 : MetricConfigL :=
  { model_name := "m"
    dataset_name := "d"
    dataset_args := dargs0
    n_samples := 10
    metrics_samples := 7
    random_state := 42
    metrics := ["dummy"]
    caches := some [("datasets", "dc"), ("models", "mc")]
    save_dir := "results"
    device := "cpu"
    local_save := true
    use_wandb := false }

/-- `cfg0` with `caches = None`. -/
def cfgNoCaches : MetricConfigL := { cfg0 with caches := none }

/-- Three metrics declaring inference types features, features, model. -/
def ffmMetrics : List (String × MetricObj) :=
  [("p1", featObj0), ("p2", featObj0), ("p3", modelObj0)]

/-- A constructed state for the features/features/model scenario. -/
def ffmState : ExpState :=
  { model_name := "m"
    random_state := 0
    metrics := ffmMetrics
    inference_types := (ffmMetrics.map (fun p => p.2.inference_type)).dedup
    dataset_cache := some "dc"
    model_cache := some "mc"
    device := "cpu"
    dataset := sampleDS
    labels := sampleDS.map Sample.label
    results := { config := cfg0, inference_times := [], metric_scores := [] }
    save_path := "p" }

/-- A constructed state with a features metric followed by a metric of
unknown inference type. -/
def fbState : ExpState :=
  { ffmState with
    metrics := [("p1", featObj0), ("pb", bogusObj0)]
    inference_types := (([("p1", featObj0), ("pb", bogusObj0)] :
      List (String × MetricObj)).map (fun p => p.2.inference_type)).dedup }

/-- A constructed state with a single metric of unknown inference type. -/
def bState : ExpState :=
  { ffmState with
    metrics := [("pb", bogusObj0)]
    inference_types := (([("pb", bogusObj0)] :
      List (String × MetricObj)).map (fun p => p.2.inference_type)).dedup }

/-- A constructed state with a single features metric. -/
def fState : ExpState :=
  { ffmState with
    metrics := [("pf", featObj0)]
    inference_types := (([("pf", featObj0)] :
      List (String × MetricObj)).map (fun p => p.2.inference_type)).dedup }

/-- The state `fState` after its run: one inference-time entry, one metric
score. -/
def fStateRun : ExpState :=
  { fState with results :=
    { config := cfg0
      inference_times := [(some "features", 0)]
      metric_scores := [("pf", (0, 0))] } }

/-- The state produced by constructing `cfg0` with `trivialCollab`. -/
def st9 : ExpState :=
  mkState trivialCollab cfg0 [("dummy", mObj0)] (some "dc") (some "mc") sampleDS

/-- The state `st9` after its run. -/
def st9r : ExpState :=
  { st9 with results :=
    { config := cfg0
      inference_times := [(none, 0)]
      metric_scores := [("dummy", (0, 0))] } }

/-! ## Helper lemmas for the triangular extraction -/

lemma list_sum_range (f : ℕ → ℕ) (n : ℕ) :
    ((List.range n).map f).sum = ∑ i in Finset.range n, f i := rfl

lemma lower_tri_arr_length {α : Type} (n : ℕ) (M : ℕ → ℕ → α) :
    (lower_tri_arr n M).length = n * (n - 1) / 2 := by
  unfold lower_tri_arr
  rw [List.length_flatMap]
  have h1 : (List.map (List.length ∘ fun i => (List.range' (i+1) (n - (i+1))).map (M i))
      (List.range n)) = (List.range n).map (fun i => n - (i+1)) := by
    apply List.map_congr_left
    intro i _
    simp [List.length_range']
  rw [h1, list_sum_range]
  calc ∑ i in Finset.range n, (n - (i+1))
      = ∑ i in Finset.range n, (n - 1 - i) :=
        Finset.sum_congr rfl (fun i _ => by omega)
    _ = ∑ i in Finset.range n, i := Finset.sum_range_reflect (fun i => i) n
    _ = n * (n - 1) / 2 := Finset.sum_range_id n

lemma mem_lower_tri_arr {α : Type} {n i j : ℕ} (M : ℕ → ℕ → α)
    (hij : i < j) (hj : j < n) : M i j ∈ lower_tri_arr n M := by
  unfold lower_tri_arr
  rw [List.mem_flatMap]
  refine ⟨i, List.mem_range.mpr (lt_trans hij hj), ?_⟩
  rw [List.mem_map]
  exact ⟨j, List.mem_range'_1.mpr ⟨hij, by omega⟩, rfl⟩

/-- C4: for every square matrix of size n×n the triangular extraction
returns exactly n(n-1)/2 values (order stability holds because
`lower_tri_arr` is a function of the matrix), and for the 5×5 matrix filled
1..25 row-major the sum of the extracted values equals the closed-form value
n²(n²+1)/2 − Σ_{k=1}^{n} k(k(2n+1)−2n+1)/2 at n = 5. -/
theorem lower_tri_arr_count_and_concrete_sum :
    (∀ (α : Type) (n : ℕ) (M : ℕ → ℕ → α), (lower_tri_arr n M).length = n * (n - 1) / 2)
    ∧ (((lower_tri_arr 5 (fun i j => (5 * i + j + 1 : ℤ))).sum : ℚ)
        = (5 ^ 2 * (5 ^ 2 + 1)) / 2
          - ∑ k in Finset.Icc (1 : ℕ) 5, ((k : ℚ) * ((k : ℚ) * (2 * 5 + 1) - 2 * 5 + 1)) / 2) := by
  constructor
  · exact fun α n M => lower_tri_arr_length n M
  · have h : (lower_tri_arr 5 (fun i j => (5 * i + j + 1 : ℤ))).sum = 90 := by decide
    rw [h]
    rw [show Finset.Icc (1 : ℕ) 5 = {1, 2, 3, 4, 5} from rfl]
    norm_num

/-- C7: feature reduction with no target dimension is the identity
transform, for every feature matrix, seed, and external PCA
implementation. -/
theorem feature_reduce_none_identity (pca : ℕ → ℕ → MatR → MatR)
    (features : MatR) (random_state : ℕ) :
    feature_reduce pca features random_state none = .ok features := rfl

/-- C6: feature reduction with a target dimension exceeding
min(n_samples, n_features) fails with the invalid-dimension `ValueError`,
and the PARC metric does not catch this error: `fit_metric` propagates it to
its caller for every scaler, label list and scaling flag. -/
theorem feature_reduce_invalid_dimension (pca : ℕ → ℕ → MatR → MatR)
    (features : MatR) (random_state : ℕ) (f : ℕ)
    (h : min features.rows features.cols < f) :
    feature_reduce pca features random_state (some f) = .error (.valueError invalidDimMsg)
    ∧ ∀ (scalerFn : ℕ → ℕ → (ℕ → ℕ → ℝ) → (ℕ → ℕ → ℝ)) (labels : List ℕ) (sf : Bool),
        parc_fit_metric pca scalerFn random_state (some f) sf features labels
          = .error (.valueError invalidDimMsg) := by
  constructor
  · simp [feature_reduce, h]
  · intro scalerFn labels sf
    cases sf <;> simp [parc_fit_metric, feature_reduce, h]

/-- Witness for C6 at a concrete input: a 2×2 matrix and target dimension 3. -/
theorem feature_reduce_invalid_dimension_witness :
    min F0.rows F0.cols < 3
    ∧ (feature_reduce pca0 F0 0 (some 3) = .error (.valueError invalidDimMsg)
       ∧ ∀ (scalerFn : ℕ → ℕ → (ℕ → ℕ → ℝ) → (ℕ → ℕ → ℝ)) (labels : List ℕ) (sf : Bool),
          parc_fit_metric pca0 scalerFn 0 (some 3) sf F0 labels
            = .error (.valueError invalidDimMsg)) :=
  ⟨by decide, feature_reduce_invalid_dimension pca0 F0 0 3 (by decide)⟩

/-! ## Helper lemmas for the PARC score on perfect features -/

lemma covS_self_nonneg (m : ℕ) (x : ℕ → ℝ) : 0 ≤ covS m x x :=
  Finset.sum_nonneg fun _ _ => mul_self_nonneg _

lemma pearson_self (m : ℕ) (x : ℕ → ℝ) (h : covS m x x ≠ 0) : pearson m x x = 1 := by
  unfold pearson
  rw [Real.mul_self_sqrt (covS_self_nonneg m x)]
  exact div_self h

lemma covS_self_ne_zero (m : ℕ) (x : ℕ → ℝ) (k1 k2 : ℕ)
    (h1 : k1 < m) (h2 : k2 < m) (hne : x k1 ≠ x k2) : covS m x x ≠ 0 := by
  intro h0
  have hz := (Finset.sum_eq_zero_iff_of_nonneg
    (fun i (_ : i ∈ Finset.range m) => mul_self_nonneg (x i - meanS m x))).mp h0
  have e1 : x k1 - meanS m x = 0 :=
    mul_self_eq_zero.mp (hz k1 (Finset.mem_range.mpr h1))
  have e2 : x k2 - meanS m x = 0 :=
    mul_self_eq_zero.mp (hz k2 (Finset.mem_range.mpr h2))
  exact hne (by linarith)

lemma sum_eq_card_mul_meanS (m : ℕ) (x : ℕ → ℝ) :
    ∑ i in Finset.range m, x i = m * meanS m x := by
  unfold meanS
  rcases Nat.eq_zero_or_pos m with h | h
  · subst h; simp
  · have hm : (m : ℝ) ≠ 0 := Nat.cast_ne_zero.mpr (by omega)
    field_simp

lemma covS_eq_sum_sub (m : ℕ) (x y : ℕ → ℝ) :
    covS m x y = (∑ i in Finset.range m, x i * y i) - m * meanS m x * meanS m y := by
  unfold covS
  have expand : ∀ i, (x i - meanS m x) * (y i - meanS m y)
      = x i * y i - x i * meanS m y - meanS m x * y i + meanS m x * meanS m y := by
    intro i; ring
  simp_rw [expand]
  rw [Finset.sum_add_distrib, Finset.sum_sub_distrib, Finset.sum_sub_distrib,
    ← Finset.sum_mul, ← Finset.mul_sum, Finset.sum_const, Finset.card_range,
    nsmul_eq_mul, sum_eq_card_mul_meanS m x, sum_eq_card_mul_meanS m y]
  ring

lemma sum_basisVec (c a : ℕ) (ha : a < c) :
    ∑ k in Finset.range c, basisVec a k = 1 := by
  unfold basisVec
  rw [Finset.sum_ite_eq]
  simp [Finset.mem_range.mpr ha]

lemma meanS_basisVec (c a : ℕ) (ha : a < c) : meanS c (basisVec a) = 1 / c := by
  unfold meanS
  rw [sum_basisVec c a ha]

lemma sum_mul_basisVec_self (c a : ℕ) (ha : a < c) :
    ∑ k in Finset.range c, basisVec a k * basisVec a k = 1 := by
  have h : ∀ k, basisVec a k * basisVec a k = basisVec a k := by
    intro k; unfold basisVec; by_cases hk : a = k <;> simp [hk]
  simp_rw [h]
  exact sum_basisVec c a ha

lemma sum_mul_basisVec_ne (c a b : ℕ) (hab : a ≠ b) :
    ∑ k in Finset.range c, basisVec a k * basisVec b k = 0 := by
  apply Finset.sum_eq_zero
  intro k _
  unfold basisVec
  by_cases hk : a = k
  · subst hk
    have : ¬ b = a := fun hba => hab hba.symm
    simp [this]
  · simp [hk]

lemma covS_basisVec_self (c a : ℕ) (ha : a < c) (hc : 2 ≤ c) :
    covS c (basisVec a) (basisVec a) = 1 - 1 / c := by
  rw [covS_eq_sum_sub, sum_mul_basisVec_self c a ha, meanS_basisVec c a ha]
  have hc0 : (c : ℝ) ≠ 0 := Nat.cast_ne_zero.mpr (by omega)
  field_simp

lemma covS_basisVec_self_pos (c a : ℕ) (ha : a < c) (hc : 2 ≤ c) :
    0 < covS c (basisVec a) (basisVec a) := by
  rw [covS_basisVec_self c a ha hc]
  have h2 : (2 : ℝ) ≤ (c : ℝ) := by exact_mod_cast hc
  have hcpos : (0 : ℝ) < (c : ℝ) := by linarith
  have hlt : 1 / (c : ℝ) ≤ 1 / 2 := by
    apply one_div_le_one_div_of_le <;> linarith
  linarith

lemma covS_basisVec_ne (c a b : ℕ) (ha : a < c) (hb : b < c) (hab : a ≠ b) :
    covS c (basisVec a) (basisVec b) = -(1 / c) := by
  rw [covS_eq_sum_sub, sum_mul_basisVec_ne c a b hab, meanS_basisVec c a ha,
    meanS_basisVec c b hb]
  have hc0 : (c : ℝ) ≠ 0 := Nat.cast_ne_zero.mpr (by omega)
  field_simp

lemma pearson_basisVec_self (c a : ℕ) (ha : a < c) (hc : 2 ≤ c) :
    pearson c (basisVec a) (basisVec a) = 1 :=
  pearson_self c _ (ne_of_gt (covS_basisVec_self_pos c a ha hc))

lemma pearson_basisVec_ne_neg (c a b : ℕ) (ha : a < c) (hb : b < c) (hab : a ≠ b) :
    pearson c (basisVec a) (basisVec b) < 0 := by
  have hc : 2 ≤ c := by omega
  unfold pearson
  rw [covS_basisVec_ne c a b ha hb hab]
  apply div_neg_of_neg_of_pos
  · have hcpos : (0 : ℝ) < (c : ℝ) := by
      have : (0 : ℕ) < c := by omega
      exact_mod_cast this
    have : (0 : ℝ) < 1 / (c : ℝ) := by positivity
    linarith
  · exact mul_pos (Real.sqrt_pos.mpr (covS_basisVec_self_pos c a ha hc))
      (Real.sqrt_pos.mpr (covS_basisVec_self_pos c b hb hc))

lemma rankAt_lt_rankAt (m : ℕ) (x : ℕ → ℝ) (i j : ℕ)
    (hi : i < m) (hj : j < m) (hlt : x i < x j) :
    rankAt m x i < rankAt m x j := by
  have hsub : ((Finset.range m).filter (fun k => x k < x i))
      ∪ ((Finset.range m).filter (fun k => x k = x i))
      ⊆ (Finset.range m).filter (fun k => x k < x j) := by
    intro k hk
    rcases Finset.mem_union.mp hk with h | h
    · obtain ⟨hkr, hkx⟩ := Finset.mem_filter.mp h
      exact Finset.mem_filter.mpr ⟨hkr, lt_trans hkx hlt⟩
    · obtain ⟨hkr, hkx⟩ := Finset.mem_filter.mp h
      exact Finset.mem_filter.mpr ⟨hkr, by rw [hkx]; exact hlt⟩
  have hdisj : Disjoint ((Finset.range m).filter (fun k => x k < x i))
      ((Finset.range m).filter (fun k => x k = x i)) := by
    rw [Finset.disjoint_left]
    intro k hk hk2
    exact absurd (Finset.mem_filter.mp hk2).2 (ne_of_lt (Finset.mem_filter.mp hk).2)
  have hcard : ((Finset.range m).filter (fun k => x k < x i)).card
      + ((Finset.range m).filter (fun k => x k = x i)).card
      ≤ ((Finset.range m).filter (fun k => x k < x j)).card := by
    rw [← Finset.card_union_of_disjoint hdisj]
    exact Finset.card_le_card hsub
  have hB : 1 ≤ ((Finset.range m).filter (fun k => x k = x i)).card :=
    Finset.card_pos.mpr ⟨i, Finset.mem_filter.mpr ⟨Finset.mem_range.mpr hi, rfl⟩⟩
  have hB2 : 1 ≤ ((Finset.range m).filter (fun k => x k = x j)).card :=
    Finset.card_pos.mpr ⟨j, Finset.mem_filter.mpr ⟨Finset.mem_range.mpr hj, rfl⟩⟩
  unfold rankAt
  have ha : (((Finset.range m).filter (fun k => x k < x i)).card : ℝ)
      + (((Finset.range m).filter (fun k => x k = x i)).card : ℝ)
      ≤ (((Finset.range m).filter (fun k => x k < x j)).card : ℝ) := by
    exact_mod_cast hcard
  have hb : (1 : ℝ) ≤ (((Finset.range m).filter (fun k => x k = x i)).card : ℝ) := by
    exact_mod_cast hB
  have hb2 : (1 : ℝ) ≤ (((Finset.range m).filter (fun k => x k = x j)).card : ℝ) := by
    exact_mod_cast hB2
  linarith

lemma rankAt_ne (m : ℕ) (x : ℕ → ℝ) (k1 k2 : ℕ)
    (h1 : k1 < m) (h2 : k2 < m) (hne : x k1 ≠ x k2) :
    rankAt m x k1 ≠ rankAt m x k2 := by
  rcases lt_or_gt_of_ne hne with h | h
  · exact ne_of_lt (rankAt_lt_rankAt m x k1 k2 h1 h2 h)
  · exact ne_of_gt (rankAt_lt_rankAt m x k2 k1 h2 h1 h)

lemma spearman_self_eq_one (m : ℕ) (x : ℕ → ℝ) (k1 k2 : ℕ)
    (h1 : k1 < m) (h2 : k2 < m) (hne : x k1 ≠ x k2) : spearman m x x = 1 :=
  pearson_self m _ (covS_self_ne_zero m _ k1 k2 h1 h2 (rankAt_ne m x k1 k2 h1 h2 hne))

lemma getD_le_foldr_max : ∀ (L : List ℕ) (i : ℕ), i < L.length →
    L.getD i 0 ≤ L.foldr max 0 := by
  intro L
  induction L with
  | nil => intro i h; simp at h
  | cons a t ih =>
    intro i h
    cases i with
    | zero => exact le_max_left a (t.foldr max 0)
    | succ n =>
      have hn : n < t.length := by simpa using h
      simpa using le_trans (ih n hn) (le_max_right a (t.foldr max 0))

lemma exists_getD_ne (v : List ℝ) (u w : ℝ) (hu : u ∈ v) (hw : w ∈ v) (hne : u ≠ w) :
    ∃ k1 k2, k1 < v.length ∧ k2 < v.length ∧ v.getD k1 0 ≠ v.getD k2 0 := by
  obtain ⟨n1, h1⟩ := List.mem_iff_get.mp hu
  obtain ⟨n2, h2⟩ := List.mem_iff_get.mp hw
  refine ⟨n1.1, n2.1, n1.isLt, n2.isLt, ?_⟩
  rw [List.getD_eq_getElem?_getD, List.getD_eq_getElem?_getD,
    List.getElem?_eq_getElem n1.isLt, List.getElem?_eq_getElem n2.isLt]
  intro hcontra
  apply hne
  rw [← h1, ← h2]
  simpa [List.get_eq_getElem] using hcontra

/-- C5: on one-hot features aligned with class identity (so the feature
matrix coincides with the one-hot label encoding) and with at least one
repeated and one distinguishing label pair, PARC's `fit_metric` with no
reduction and no scaling returns exactly 100 — in particular within the
1e-5 tolerance of the test. -/
theorem parc_perfect_features_score (pca : ℕ → ℕ → MatR → MatR)
    (scalerFn : ℕ → ℕ → (ℕ → ℕ → ℝ) → (ℕ → ℕ → ℝ)) (rs : ℕ) (L : List ℕ)
    (h1 : ∃ i j, i < L.length ∧ j < L.length ∧ i ≠ j ∧ L.getD i 0 = L.getD j 0)
    (h2 : ∃ i j, i < L.length ∧ j < L.length ∧ L.getD i 0 ≠ L.getD j 0) :
    (PARCMetric.mk rs none false).fit_metric pca scalerFn
      ⟨L.length, L.foldr max 0 + 1, oneHotRow L⟩ L = .ok 100 := by
  obtain ⟨i1, j1, hi1, hj1, hij1, heq1⟩ := h1
  obtain ⟨i2, j2, hi2, hj2, hne2⟩ := h2
  have hp1 : ∃ a b, a < b ∧ b < L.length ∧ L.getD a 0 = L.getD b 0 := by
    rcases Nat.lt_or_ge i1 j1 with h | h
    · exact ⟨i1, j1, h, hj1, heq1⟩
    · exact ⟨j1, i1, lt_of_le_of_ne h (Ne.symm hij1), hi1, heq1.symm⟩
  have hp2 : ∃ a b, a < b ∧ b < L.length ∧ L.getD a 0 ≠ L.getD b 0 := by
    rcases Nat.lt_trichotomy i2 j2 with h | h | h
    · exact ⟨i2, j2, h, hj2, hne2⟩
    · exact absurd (by rw [h]) hne2
    · exact ⟨j2, i2, h, hi2, hne2.symm⟩
  obtain ⟨a1, b1, hab1, hb1, he1⟩ := hp1
  obtain ⟨a2, b2, hab2, hb2, he2⟩ := hp2
  have hL_b1 : L.getD b1 0 < L.foldr max 0 + 1 :=
    Nat.lt_succ_of_le (getD_le_foldr_max L b1 hb1)
  have hL_a2 : L.getD a2 0 < L.foldr max 0 + 1 :=
    Nat.lt_succ_of_le (getD_le_foldr_max L a2 (lt_trans hab2 hb2))
  have hL_b2 : L.getD b2 0 < L.foldr max 0 + 1 :=
    Nat.lt_succ_of_le (getD_le_foldr_max L b2 hb2)
  have hc2 : 2 ≤ L.foldr max 0 + 1 := by
    have h1m := getD_le_foldr_max L a2 (lt_trans hab2 hb2)
    have h2m := getD_le_foldr_max L b2 hb2
    omega
  have hrow : ∀ i, oneHotRow L i = basisVec (L.getD i 0) := fun _ => rfl
  have hd1 : parcDist L a1 b1 = 0 := by
    unfold parcDist
    rw [hrow a1, hrow b1, he1, pearson_basisVec_self _ _ hL_b1 hc2]
    ring
  have hd2 : 1 < parcDist L a2 b2 := by
    unfold parcDist
    rw [hrow a2, hrow b2]
    have := pearson_basisVec_ne_neg _ _ _ hL_a2 hL_b2 he2
    linarith
  have hmem1 : (0 : ℝ) ∈ parcDistList L := by
    unfold parcDistList
    have hmm := mem_lower_tri_arr (parcDist L) hab1 hb1
    rwa [hd1] at hmm
  have hmem2 : parcDist L a2 b2 ∈ parcDistList L :=
    mem_lower_tri_arr (parcDist L) hab2 hb2
  have hne0 : (0 : ℝ) ≠ parcDist L a2 b2 := by linarith
  obtain ⟨k1, k2, hk1, hk2, hkne⟩ :=
    exists_getD_ne (parcDistList L) 0 _ hmem1 hmem2 hne0
  have hsp : spearmanL (parcDistList L) (parcDistList L) = 1 := by
    unfold spearmanL
    exact spearman_self_eq_one (parcDistList L).length _ k1 k2 hk1 hk2 hkne
  have hred : (PARCMetric.mk rs none false).fit_metric pca scalerFn
      ⟨L.length, L.foldr max 0 + 1, oneHotRow L⟩ L
      = .ok (spearmanL (parcDistList L) (parcDistList L) * 100) := rfl
  rw [hred, hsp]
  norm_num

/-- Witness for C5 at a concrete input: labels [0,0,1], one-hot features. -/
theorem parc_perfect_features_score_witness :
    (∃ i j, i < L0.length ∧ j < L0.length ∧ i ≠ j ∧ L0.getD i 0 = L0.getD j 0)
    ∧ (∃ i j, i < L0.length ∧ j < L0.length ∧ L0.getD i 0 ≠ L0.getD j 0)
    ∧ (PARCMetric.mk 7 none false).fit_metric pca0 scaler0
        ⟨L0.length, L0.foldr max 0 + 1, oneHotRow L0⟩ L0 = .ok 100 :=
  ⟨⟨0, 1, by decide, by decide, by decide, by decide⟩,
   ⟨0, 2, by decide, by decide, by decide⟩,
   parc_perfect_features_score pca0 scaler0 7 L0
     ⟨0, 1, by decide, by decide, by decide, by decide⟩
     ⟨0, 2, by decide, by decide, by decide⟩⟩

/-! ## Helper lemmas for the orchestrator run -/

lemma perform_inference_none (C : Collab) (st : ExpState) :
    perform_inference C st none = (.ok none, []) := rfl

lemma perform_inference_features (C : Collab) (st : ExpState) (c : String)
    (hmc : st.model_cache = some c) :
    perform_inference C st (some "features")
      = (.ok (some (.features (st.dataset.map (C.getFeaturesRow st.model_name)))),
         [Event.featuresInference]) := by
  simp [perform_inference, features_inference, hmc]

lemma perform_inference_model (C : Collab) (st : ExpState) (c : String)
    (hmc : st.model_cache = some c) :
    perform_inference C st (some "model")
      = (.ok (some (.model (C.modelOf st.model_name))), [Event.modelInference]) := by
  simp [perform_inference, model_inference, hmc]

lemma perform_inference_features_err (C : Collab) (st : ExpState)
    (hmc : st.model_cache = none) :
    perform_inference C st (some "features")
      = (.error (.attributeError "model_cache"), []) := by
  simp [perform_inference, features_inference, hmc]

lemma perform_inference_model_err (C : Collab) (st : ExpState)
    (hmc : st.model_cache = none) :
    perform_inference C st (some "model")
      = (.error (.attributeError "model_cache"), []) := by
  simp [perform_inference, model_inference, hmc]

lemma perform_inference_unsupported (C : Collab) (st : ExpState) (s : String)
    (h1 : s ≠ "features") (h2 : s ≠ "model") :
    perform_inference C st (some s)
      = (.error (.notImplementedError ("Not implemented inference for type " ++ s)), []) := by
  simp [perform_inference, h1, h2]

lemma perform_inference_ok (C : Collab) (st : ExpState) {t : Option String}
    {a : Option Artifact} {ev : List Event}
    (h : perform_inference C st t = (.ok a, ev)) : a = sharedArtifact C st t := by
  rcases t with _ | s
  · rw [perform_inference_none] at h
    simp only [Prod.mk.injEq, Except.ok.injEq] at h
    simp [sharedArtifact, ← h.1]
  · by_cases hf : s = "features"
    · subst hf
      cases hmc : st.model_cache with
      | none => rw [perform_inference_features_err C st hmc] at h; simp at h
      | some c =>
        rw [perform_inference_features C st c hmc] at h
        simp only [Prod.mk.injEq, Except.ok.injEq] at h
        simp [sharedArtifact, ← h.1]
    · by_cases hm : s = "model"
      · subst hm
        cases hmc : st.model_cache with
        | none => rw [perform_inference_model_err C st hmc] at h; simp at h
        | some c =>
          rw [perform_inference_model C st c hmc] at h
          simp only [Prod.mk.injEq, Except.ok.injEq] at h
          simp [sharedArtifact, ← h.1]
      · rw [perform_inference_unsupported C st s hf hm] at h
        simp at h

lemma runStep_ok (C : Collab) (st : ExpState) (t : Option String) (res : Results)
    {res2 : Results} {ev : List Event}
    (h : runStep C st t res = (.ok res2, ev)) :
    res2 = { config := res.config
             inference_times := res.inference_times ++ [(t, C.inferenceTime t)]
             metric_scores := res.metric_scores
               ++ (groupFor st t).map (scoreEntry C st (sharedArtifact C st t)) } := by
  unfold runStep at h
  split at h
  · simp at h
  · rename_i art ev1 heq
    simp only [Prod.mk.injEq, Except.ok.injEq] at h
    rw [← h.1, perform_inference_ok C st heq]

lemma runStep_trace (C : Collab) (st : ExpState) (t : Option String) (res : Results)
    {res2 : Results} {ev : List Event}
    (h : runStep C st t res = (.ok res2, ev)) :
    ev = (perform_inference C st t).2 ++ (groupFor st t).map (fun p => Event.scored p.1) := by
  unfold runStep at h
  split at h
  · simp at h
  · rename_i art ev1 heq
    simp only [Prod.mk.injEq, Except.ok.injEq] at h
    rw [← h.2, heq]

lemma runLoop_ok (C : Collab) (st : ExpState) :
    ∀ (ts : List (Option String)) (res : Results) {res2 : Results} {ev : List Event},
    runLoop C st ts res = (.ok res2, ev) →
    res2 = { config := res.config
             inference_times := res.inference_times
               ++ ts.map (fun t => (t, C.inferenceTime t))
             metric_scores := res.metric_scores
               ++ ts.flatMap (fun t =>
                  (groupFor st t).map (scoreEntry C st (sharedArtifact C st t))) } := by
  intro ts
  induction ts with
  | nil =>
    intro res res2 ev h
    simp only [runLoop, Prod.mk.injEq, Except.ok.injEq] at h
    rcases h with ⟨h1, _⟩
    subst h1
    simp
  | cons t rest ih =>
    intro res res2 ev h
    unfold runLoop at h
    split at h
    · simp at h
    · rename_i res1 ev1 heq
      split at h
      rename_i out ev2 heq2
      simp only [Prod.mk.injEq] at h
      cases out with
      | error e => simp at h
      | ok resf =>
        have h1 : runLoop C st rest res1 = (.ok res2, ev2) := by
          rw [heq2, h.1]
        have hr1 := runStep_ok C st t res heq
        have hr2 := ih res1 h1
        rw [hr2, hr1]
        simp

lemma run_experiment_ok (C : Collab) (st : ExpState) {st1 : ExpState}
    (h : (run_experiment C st).1 = .ok st1) :
    ∃ res2, runLoop C st st.inference_types st.results
        = (.ok res2, (run_experiment C st).2)
      ∧ st1 = { st with results := res2 } := by
  unfold run_experiment at h ⊢
  split at h
  · simp at h
  · rename_i res ev heq
    simp only [Except.ok.injEq] at h
    rw [heq]
    exact ⟨res, rfl, h.symm⟩

lemma mem_scores_of_run_ok (C : Collab) (st : ExpState) {st1 : ExpState}
    (hinv : infTypesInv st) (p : String × MetricObj) (hp : p ∈ st.metrics)
    (h : (run_experiment C st).1 = .ok st1) :
    scoreEntry C st (sharedArtifact C st p.2.inference_type) p
      ∈ st1.results.metric_scores := by
  obtain ⟨res2, hloop, hst1⟩ := run_experiment_ok C st h
  have hchar := runLoop_ok C st st.inference_types st.results hloop
  rw [hst1, hchar]
  apply List.mem_append_right
  rw [List.mem_flatMap]
  refine ⟨p.2.inference_type, ?_, ?_⟩
  · rw [hinv, List.mem_dedup]
    exact List.mem_map_of_mem (fun q => q.2.inference_type) hp
  · exact List.mem_map_of_mem _ (List.mem_filter.mpr ⟨hp, by simp⟩)

lemma count_scored_map (l : List (String × MetricObj)) (e : Event)
    (he : ∀ n, e ≠ Event.scored n) :
    (l.map (fun p => Event.scored p.1)).count e = 0 := by
  rw [List.count_eq_zero]
  intro hmem
  rcases List.mem_map.mp hmem with ⟨p, _, hp⟩
  exact he p.1 hp.symm

lemma count_perform_inference_feat (C : Collab) (st : ExpState) (t : Option String) :
    ((perform_inference C st t).2).count Event.featuresInference
      ≤ (if t = some "features" then 1 else 0) := by
  rcases t with _ | s
  · simp [perform_inference_none]
  · by_cases hf : s = "features"
    · subst hf
      cases hmc : st.model_cache with
      | none => simp [perform_inference_features_err C st hmc]
      | some c => simp [perform_inference_features C st c hmc]
    · by_cases hm : s = "model"
      · subst hm
        cases hmc : st.model_cache with
        | none => simp [perform_inference_model_err C st hmc]
        | some c => simp [perform_inference_model C st c hmc, hf]
      · simp [perform_inference_unsupported C st s hf hm]

lemma count_perform_inference_model (C : Collab) (st : ExpState) (t : Option String) :
    ((perform_inference C st t).2).count Event.modelInference
      ≤ (if t = some "model" then 1 else 0) := by
  rcases t with _ | s
  · simp [perform_inference_none]
  · by_cases hf : s = "features"
    · subst hf
      cases hmc : st.model_cache with
      | none => simp [perform_inference_features_err C st hmc]
      | some c => simp [perform_inference_features C st c hmc]
    · by_cases hm : s = "model"
      · subst hm
        cases hmc : st.model_cache with
        | none => simp [perform_inference_model_err C st hmc]
        | some c => simp [perform_inference_model C st c hmc, hf]
      · simp [perform_inference_unsupported C st s hf hm]

lemma runStep_count_le (C : Collab) (st : ExpState) (t : Option String) (res : Results)
    (e : Event) (b : ℕ) (he : ∀ n, e ≠ Event.scored n)
    (hpi : ((perform_inference C st t).2).count e ≤ b) :
    ((runStep C st t res).2).count e ≤ b := by
  unfold runStep
  split
  · rename_i e2 ev heq
    rw [heq] at hpi
    exact hpi
  · rename_i art ev heq
    rw [heq] at hpi
    simp only [List.count_append]
    rw [count_scored_map _ e he]
    simpa using hpi

lemma runLoop_count_feat (C : Collab) (st : ExpState) :
    ∀ (ts : List (Option String)) (res : Results),
    ((runLoop C st ts res).2).count Event.featuresInference
      ≤ ts.count (some "features") := by
  intro ts
  induction ts with
  | nil => intro res; simp [runLoop]
  | cons t rest ih =>
    intro res
    unfold runLoop
    split
    · rename_i e ev heq
      have h1 := runStep_count_le C st t res Event.featuresInference _
        (by intro n; simp) (count_perform_inference_feat C st t)
      rw [heq] at h1
      calc (ev.count Event.featuresInference)
          ≤ (if t = some "features" then 1 else 0) := h1
        _ ≤ (t :: rest).count (some "features") := by
            rw [List.count_cons]
            by_cases hft : t = some "features" <;> simp [hft]
    · rename_i res1 ev heq
      split
      rename_i out ev2 heq2
      have h1 := runStep_count_le C st t res Event.featuresInference _
        (by intro n; simp) (count_perform_inference_feat C st t)
      rw [heq] at h1
      have h2 := ih res1
      rw [heq2] at h2
      simp only [List.count_append]
      calc ev.count Event.featuresInference + ev2.count Event.featuresInference
          ≤ (if t = some "features" then 1 else 0) + rest.count (some "features") := by
            exact Nat.add_le_add h1 h2
        _ = (t :: rest).count (some "features") := by
            rw [List.count_cons]
            by_cases hft : t = some "features" <;> simp [hft, Nat.add_comm]

lemma runLoop_count_model (C : Collab) (st : ExpState) :
    ∀ (ts : List (Option String)) (res : Results),
    ((runLoop C st ts res).2).count Event.modelInference
      ≤ ts.count (some "model") := by
  intro ts
  induction ts with
  | nil => intro res; simp [runLoop]
  | cons t rest ih =>
    intro res
    unfold runLoop
    split
    · rename_i e ev heq
      have h1 := runStep_count_le C st t res Event.modelInference _
        (by intro n; simp) (count_perform_inference_model C st t)
      rw [heq] at h1
      calc (ev.count Event.modelInference)
          ≤ (if t = some "model" then 1 else 0) := h1
        _ ≤ (t :: rest).count (some "model") := by
            rw [List.count_cons]
            by_cases hft : t = some "model" <;> simp [hft]
    · rename_i res1 ev heq
      split
      rename_i out ev2 heq2
      have h1 := runStep_count_le C st t res Event.modelInference _
        (by intro n; simp) (count_perform_inference_model C st t)
      rw [heq] at h1
      have h2 := ih res1
      rw [heq2] at h2
      simp only [List.count_append]
      calc ev.count Event.modelInference + ev2.count Event.modelInference
          ≤ (if t = some "model" then 1 else 0) + rest.count (some "model") := by
            exact Nat.add_le_add h1 h2
        _ = (t :: rest).count (some "model") := by
            rw [List.count_cons]
            by_cases hft : t = some "model" <;> simp [hft, Nat.add_comm]

lemma run_experiment_trace (C : Collab) (st : ExpState) :
    (run_experiment C st).2 = (runLoop C st st.inference_types st.results).2 := by
  unfold run_experiment
  split
  · rename_i e ev heq; rw [heq]
  · rename_i res ev heq; rw [heq]

lemma count_le_one_of_nodup (l : List (Option String)) (h : l.Nodup)
    (a : Option String) : l.count a <= 1 := by
  induction l with
  | nil => simp
  | cons x xs ih =>
    rw [List.count_cons]
    rcases List.nodup_cons.mp h with ⟨hx, hxs⟩
    by_cases hax : a = x
    · subst hax
      have hz : xs.count a = 0 := List.count_eq_zero.mpr hx
      simp [hz]
    · have hxa : ¬ x = a := fun hh => hax hh.symm
      simp [hxa, ih hxs]

/-- C1: for every experiment state satisfying the constructor invariant, the
run performs the features pass at most once and the model pass at most once
(the inference-type list is deduplicated), and every metric is scored
against the single shared artifact of its declared inference type; in
particular, for the concrete metric set declaring inference types
features/features/model, feature extraction runs exactly once and model
loading exactly once. -/
theorem run_experiment_inference_once (C : Collab) (st : ExpState)
    (h : infTypesInv st) :
    ((run_experiment C st).2).count Event.featuresInference ≤ 1
    ∧ ((run_experiment C st).2).count Event.modelInference ≤ 1
    ∧ (∀ p ∈ st.metrics, ∀ st1, (run_experiment C st).1 = .ok st1 →
        (p.1, compute_metric_score C st p (sharedArtifact C st p.2.inference_type))
          ∈ st1.results.metric_scores)
    ∧ ((run_experiment C ffmState).2).count Event.featuresInference = 1
    ∧ ((run_experiment C ffmState).2).count Event.modelInference = 1 := by
  refine ⟨?_, ?_, ?_, ?_, ?_⟩
  · rw [run_experiment_trace]
    calc ((runLoop C st st.inference_types st.results).2).count Event.featuresInference
        ≤ st.inference_types.count (some "features") := runLoop_count_feat C st _ _
      _ ≤ 1 := by
          rw [h]
          exact count_le_one_of_nodup _ (List.nodup_dedup _) _
  · rw [run_experiment_trace]
    calc ((runLoop C st st.inference_types st.results).2).count Event.modelInference
        ≤ st.inference_types.count (some "model") := runLoop_count_model C st _ _
      _ ≤ 1 := by
          rw [h]
          exact count_le_one_of_nodup _ (List.nodup_dedup _) _
  · intro p hp st1 hok
    exact mem_scores_of_run_ok C st h p hp hok
  · rfl
  · rfl

/-- Witness for C1 at the concrete features/features/model state. -/
theorem run_experiment_inference_once_witness :
    infTypesInv ffmState
    ∧ (((run_experiment trivialCollab ffmState).2).count Event.featuresInference ≤ 1
      ∧ ((run_experiment trivialCollab ffmState).2).count Event.modelInference ≤ 1
      ∧ (∀ p ∈ ffmState.metrics, ∀ st1,
          (run_experiment trivialCollab ffmState).1 = .ok st1 →
          (p.1, compute_metric_score trivialCollab ffmState p
              (sharedArtifact trivialCollab ffmState p.2.inference_type))
            ∈ st1.results.metric_scores)
      ∧ ((run_experiment trivialCollab ffmState).2).count Event.featuresInference = 1
      ∧ ((run_experiment trivialCollab ffmState).2).count Event.modelInference = 1) :=
  ⟨rfl, run_experiment_inference_once trivialCollab ffmState rfl⟩

lemma runLoop_cons_eq (C : Collab) (st : ExpState) (t : Option String)
    (rest : List (Option String)) (res : Results) :
    runLoop C st (t :: rest) res
      = (match runStep C st t res with
         | (.error e, ev) => (.error e, ev)
         | (.ok res1, ev) =>
           match runLoop C st rest res1 with
           | (out, ev2) => (out, ev ++ ev2)) := rfl

lemma runStep_of_perform_ok (C : Collab) (st : ExpState) (t : Option String)
    (res : Results) (a : Option Artifact) (ev1 : List Event)
    (hpi : perform_inference C st t = (.ok a, ev1)) :
    runStep C st t res = (.ok { res with
        inference_times := res.inference_times ++ [(t, C.inferenceTime t)]
        metric_scores := res.metric_scores ++ (groupFor st t).map (scoreEntry C st a) },
      ev1 ++ (groupFor st t).map (fun p => Event.scored p.1)) := by
  unfold runStep
  rw [hpi]

lemma runLoop_cons_ok (C : Collab) (st : ExpState) (t : Option String)
    (rest : List (Option String)) (res res1 : Results) (ev : List Event)
    (hstep : runStep C st t res = (.ok res1, ev)) :
    runLoop C st (t :: rest) res
      = ((runLoop C st rest res1).1, ev ++ (runLoop C st rest res1).2) := by
  rw [runLoop_cons_eq, hstep]

lemma runLoop_cons_err (C : Collab) (st : ExpState) (t : Option String)
    (rest : List (Option String)) (res : Results) (e : PyErr) (ev : List Event)
    (hstep : runStep C st t res = (.error e, ev)) :
    runLoop C st (t :: rest) res = (.error e, ev) := by
  rw [runLoop_cons_eq, hstep]

lemma runStep_supported_ok (C : Collab) (st : ExpState) (t : Option String)
    (res : Results) (hmc : st.model_cache ≠ none)
    (ht : t = none ∨ t = some "features" ∨ t = some "model") :
    ∃ res1 ev, runStep C st t res = (.ok res1, ev) := by
  cases hmc2 : st.model_cache with
  | none => exact absurd hmc2 hmc
  | some c =>
    rcases ht with h | h | h <;> subst h
    · exact ⟨_, _, runStep_of_perform_ok C st none res none []
        (perform_inference_none C st)⟩
    · exact ⟨_, _, runStep_of_perform_ok C st _ res _ _
        (perform_inference_features C st c hmc2)⟩
    · exact ⟨_, _, runStep_of_perform_ok C st _ res _ _
        (perform_inference_model C st c hmc2)⟩

lemma runLoop_unsupported (C : Collab) (st : ExpState) (hmc : st.model_cache ≠ none) :
    ∀ (ts : List (Option String)) (res : Results),
    (∃ t ∈ ts, ∃ s, t = some s ∧ s ≠ "features" ∧ s ≠ "model") →
    ∃ s, s ≠ "features" ∧ s ≠ "model"
      ∧ (runLoop C st ts res).1
          = .error (.notImplementedError ("Not implemented inference for type " ++ s)) := by
  intro ts
  induction ts with
  | nil =>
    intro res h
    rcases h with ⟨t, ht, _⟩
    exact absurd ht (List.not_mem_nil t)
  | cons t rest ih =>
    intro res h
    by_cases hsupp : t = none ∨ t = some "features" ∨ t = some "model"
    · obtain ⟨res1, ev, hstep⟩ := runStep_supported_ok C st t res hmc hsupp
      have h2 : ∃ u ∈ rest, ∃ s, u = some s ∧ s ≠ "features" ∧ s ≠ "model" := by
        rcases h with ⟨u, hu, s, hus, hs1, hs2⟩
        rcases List.mem_cons.mp hu with heq | hmem
        · exfalso
          subst heq
          rcases hsupp with h0 | h0 | h0 <;> rw [h0] at hus
          · simp at hus
          · rw [Option.some.injEq] at hus; exact hs1 hus.symm
          · rw [Option.some.injEq] at hus; exact hs2 hus.symm
        · exact ⟨u, hmem, s, hus, hs1, hs2⟩
      obtain ⟨s, hs1, hs2, hloop⟩ := ih res1 h2
      refine ⟨s, hs1, hs2, ?_⟩
      rw [runLoop_cons_ok C st t rest res res1 ev hstep]
      exact hloop
    · push_neg at hsupp
      obtain ⟨hn, hf, hm⟩ := hsupp
      rcases t with _ | s
      · exact absurd rfl hn
      · have hs1 : s ≠ "features" := fun hh => hf (by rw [hh])
        have hs2 : s ≠ "model" := fun hh => hm (by rw [hh])
        have hstep : runStep C st (some s) res
            = (.error (.notImplementedError ("Not implemented inference for type " ++ s)), []) := by
          unfold runStep
          rw [perform_inference_unsupported C st s hs1 hs2]
        rw [runLoop_cons_err C st _ rest res _ _ hstep]
        exact ⟨s, hs1, hs2, rfl⟩

/-- C3 counterexample: a run whose metric set declares inference types
features and then an unknown type.  It does fail with the
`NotImplementedError`, but feature-extraction inference work has already
been performed before the failure, refuting "fails fast and before any
inference work is performed". -/
theorem unsupported_type_counterexample :
    (run_experiment trivialCollab fbState).1
      = .error (.notImplementedError "Not implemented inference for type bogus")
    ∧ Event.featuresInference ∈ (run_experiment trivialCollab fbState).2 := by
  constructor
  · rfl
  · decide

/-- C3 amended: a run whose metric set contains a metric declaring an
unknown non-null inference type fails with the `NotImplementedError` raised
by `perform_inference` before any inference work for that unsupported type
(but inference passes for other declared types may already have run, as the
counterexample shows). -/
theorem run_experiment_unsupported_type_errors (C : Collab) (st : ExpState)
    (hmc : st.model_cache ≠ none) (hinv : infTypesInv st)
    (hbad : ∃ p ∈ st.metrics, ∃ s, p.2.inference_type = some s
      ∧ s ≠ "features" ∧ s ≠ "model") :
    ∃ s, s ≠ "features" ∧ s ≠ "model"
      ∧ (run_experiment C st).1
          = .error (.notImplementedError ("Not implemented inference for type " ++ s)) := by
  have hts : ∃ t ∈ st.inference_types, ∃ s, t = some s
      ∧ s ≠ "features" ∧ s ≠ "model" := by
    obtain ⟨p, hp, s, hps, hs1, hs2⟩ := hbad
    refine ⟨p.2.inference_type, ?_, s, hps, hs1, hs2⟩
    rw [hinv, List.mem_dedup]
    exact List.mem_map_of_mem _ hp
  obtain ⟨s, hs1, hs2, hloop⟩ :=
    runLoop_unsupported C st hmc st.inference_types st.results hts
  refine ⟨s, hs1, hs2, ?_⟩
  unfold run_experiment
  split
  · rename_i e ev heq
    rw [heq] at hloop
    simpa using hloop
  · rename_i res ev heq
    rw [heq] at hloop
    simp at hloop

/-- Witness for the amended C3 at a concrete input: a single metric of
unknown inference type. -/
theorem run_experiment_unsupported_type_errors_witness :
    bState.model_cache ≠ none
    ∧ infTypesInv bState
    ∧ (∃ p ∈ bState.metrics, ∃ s, p.2.inference_type = some s
        ∧ s ≠ "features" ∧ s ≠ "model")
    ∧ (∃ s, s ≠ "features" ∧ s ≠ "model"
        ∧ (run_experiment trivialCollab bState).1
            = .error (.notImplementedError ("Not implemented inference for type " ++ s))) :=
  ⟨by decide, rfl,
   ⟨("pb", bogusObj0), List.mem_singleton.mpr rfl, "bogus", rfl, by decide, by decide⟩,
   run_experiment_unsupported_type_errors trivialCollab bState (by decide) rfl
     ⟨("pb", bogusObj0), List.mem_singleton.mpr rfl, "bogus", rfl, by decide, by decide⟩⟩

/-- C8: the label vector passed to every scored metric is the label column
of the same (already subsampled) dataset from which the feature matrix is
extracted; for a features-type metric the recorded score is its
`fit_metric` applied to the shared feature artifact and those labels, the
feature matrix has one row per label, and row `i` and label `i` both come
from sample `i` of that dataset. -/
theorem labels_match_model_input (C : Collab) (st : ExpState) (st1 : ExpState)
    (p : String × MetricObj)
    (hlab : st.labels = st.dataset.map Sample.label)
    (hinv : infTypesInv st)
    (hp : p ∈ st.metrics)
    (hf : p.2.inference_type = some "features")
    (hrun : (run_experiment C st).1 = .ok st1) :
    (p.1, (p.2.fit (some (.features (st.dataset.map (C.getFeaturesRow st.model_name))))
        st.labels, C.metricTime p.1)) ∈ st1.results.metric_scores
    ∧ (st.dataset.map (C.getFeaturesRow st.model_name)).length = st.labels.length
    ∧ ∀ i : ℕ, (st.dataset.map (C.getFeaturesRow st.model_name))[i]?
          = (st.dataset[i]?).map (C.getFeaturesRow st.model_name)
        ∧ st.labels[i]? = (st.dataset[i]?).map Sample.label := by
  refine ⟨?_, ?_, ?_⟩
  · have h := mem_scores_of_run_ok C st hinv p hp hrun
    have hsa : sharedArtifact C st p.2.inference_type
        = some (.features (st.dataset.map (C.getFeaturesRow st.model_name))) := by
      rw [hf]
      simp [sharedArtifact]
    rw [hsa] at h
    exact h
  · rw [hlab]
    simp
  · intro i
    constructor
    · simp [List.getElem?_map]
    · rw [hlab]
      simp [List.getElem?_map]

/-- Witness for C8 with a concrete single-features-metric run. -/
theorem labels_match_model_input_witness :
    fState.labels = fState.dataset.map Sample.label
    ∧ infTypesInv fState
    ∧ ("pf", featObj0) ∈ fState.metrics
    ∧ featObj0.inference_type = some "features"
    ∧ (run_experiment trivialCollab fState).1 = .ok fStateRun
    ∧ (("pf", (featObj0.fit
          (some (.features (fState.dataset.map
            (trivialCollab.getFeaturesRow fState.model_name)))) fState.labels,
          trivialCollab.metricTime "pf")) ∈ fStateRun.results.metric_scores
      ∧ (fState.dataset.map (trivialCollab.getFeaturesRow fState.model_name)).length
          = fState.labels.length
      ∧ ∀ i : ℕ, (fState.dataset.map (trivialCollab.getFeaturesRow fState.model_name))[i]?
            = (fState.dataset[i]?).map (trivialCollab.getFeaturesRow fState.model_name)
          ∧ fState.labels[i]? = (fState.dataset[i]?).map Sample.label) :=
  ⟨rfl, rfl, List.mem_singleton.mpr rfl, rfl, rfl,
   labels_match_model_input trivialCollab fState fStateRun ("pf", featObj0)
     rfl rfl (List.mem_singleton.mpr rfl) rfl rfl⟩

/-- C2: during construction, once the pipeline reaches the metrics-set
subsample, a stratified-subsampling `ValueError` whose message starts with
the single-member-class text is caught: the warning is emitted and the same
request is retried without stratification, the retry outcome (success or
failure) becoming the outcome of construction; any other failure of the
stratified call propagates unchanged with no warning. -/
theorem construct_stratification_fallback (C : Collab) (cfg : MetricConfigL)
    (ms : List (String × MetricObj)) (cc : Option String × Option String)
    (cacheDir : String) (ds2 : DS)
    (h1 : buildMetrics C.registry cfg.metrics.dedup = .ok ms)
    (h2 : resolveCaches cfg.caches = .ok cc)
    (h3 : readAttr cc.1 "dataset_cache" = .ok cacheDir)
    (h4 : prepareTrainSet C cfg cacheDir = .ok ds2) :
    (∀ msg, C.dropImages ds2 cfg.metrics_samples cfg.random_state (some "label")
          = .error (.valueError msg) →
        strStartsWith msg stratMsgStart = true →
        constructExperiment C cfg
          = (match C.dropImages ds2 cfg.metrics_samples cfg.random_state none with
             | .ok ds3 => (.ok (mkState C cfg ms cc.1 cc.2 ds3), true)
             | .error e2 => (.error e2, true)))
    ∧ (∀ e, C.dropImages ds2 cfg.metrics_samples cfg.random_state (some "label")
          = .error e →
        isStratSingleMemberError e = false →
        constructExperiment C cfg = (.error e, false)) := by
  constructor
  · intro msg hdrop hmsg
    unfold constructExperiment
    rw [h1]; dsimp only
    rw [h2]; dsimp only
    rw [h3]; dsimp only
    rw [h4]; dsimp only
    unfold subsampleWithFallback
    dsimp only
    rw [hdrop]; dsimp only
    have hcaught : isStratSingleMemberError (.valueError msg) = true := by
      simp [isStratSingleMemberError, hmsg]
    rw [hcaught]
    simp only [if_true]
    cases hret : C.dropImages ds2 cfg.metrics_samples cfg.random_state none with
    | ok ds3 => rfl
    | error e2 => rfl
  · intro e hdrop hne
    unfold constructExperiment
    rw [h1]; dsimp only
    rw [h2]; dsimp only
    rw [h3]; dsimp only
    rw [h4]; dsimp only
    unfold subsampleWithFallback
    dsimp only
    rw [hdrop]; dsimp only
    rw [hne]
    simp only [Bool.false_eq_true, if_false]

set_option maxRecDepth 8000 in
/-- Witness for C2: collaborators whose stratified metrics-set subsample
fails with the single-member-class message and whose unstratified retry
succeeds; construction succeeds with the warning emitted. -/
theorem construct_stratification_fallback_witness :
    buildMetrics stratCollab.registry cfg0.metrics.dedup = .ok [("dummy", mObj0)]
    ∧ resolveCaches cfg0.caches = .ok (some "dc", some "mc")
    ∧ prepareTrainSet stratCollab cfg0 "dc" = .ok sampleDS
    ∧ stratFailDrop sampleDS cfg0.metrics_samples cfg0.random_state (some "label")
        = .error (.valueError stratMsgStart)
    ∧ constructExperiment stratCollab cfg0
        = (.ok (mkState stratCollab cfg0 [("dummy", mObj0)]
            (some "dc") (some "mc") sampleDS), true) := by
  refine ⟨rfl, rfl, rfl, rfl, ?_⟩
  exact (construct_stratification_fallback stratCollab cfg0 [("dummy", mObj0)]
      (some "dc", some "mc") "dc" sampleDS rfl rfl rfl rfl).1 stratMsgStart rfl
    (by decide)

/-- C10: for every configuration whose metric names all resolve in the
registry, construction with `caches = None` fails with the attribute error
on `dataset_cache` raised while loading the dataset; and with a caches
mapping present, the keys "datasets" and "models" are required on pain of a
`KeyError` — a non-None caches mapping with both keys is an undocumented
precondition of construction. -/
theorem construct_requires_caches (C : Collab) (cfg : MetricConfigL)
    (ms : List (String × MetricObj))
    (hreg : buildMetrics C.registry cfg.metrics.dedup = .ok ms) :
    (cfg.caches = none →
      constructExperiment C cfg = (.error (.attributeError "dataset_cache"), false))
    ∧ (∀ d, cfg.caches = some d → d.lookup "datasets" = none →
        constructExperiment C cfg = (.error (.keyError "datasets"), false))
    ∧ (∀ d v, cfg.caches = some d → d.lookup "datasets" = some v →
        d.lookup "models" = none →
        constructExperiment C cfg = (.error (.keyError "models"), false)) := by
  refine ⟨?_, ?_, ?_⟩
  · intro hnone
    unfold constructExperiment
    rw [hreg]; dsimp only
    unfold resolveCaches
    rw [hnone]
    rfl
  · intro d hsome hlook
    unfold constructExperiment
    rw [hreg]; dsimp only
    unfold resolveCaches
    rw [hsome]; dsimp only
    unfold lookupKey
    rw [hlook]
  · intro d v hsome hlook1 hlook2
    unfold constructExperiment
    rw [hreg]; dsimp only
    unfold resolveCaches
    rw [hsome]; dsimp only
    unfold lookupKey
    rw [hlook1]; dsimp only
    rw [hlook2]

/-- Witness for C10: the concrete configuration with `caches = None`. -/
theorem construct_requires_caches_witness :
    buildMetrics trivialCollab.registry cfgNoCaches.metrics.dedup = .ok [("dummy", mObj0)]
    ∧ cfgNoCaches.caches = none
    ∧ constructExperiment trivialCollab cfgNoCaches
        = (.error (.attributeError "dataset_cache"), false) :=
  ⟨rfl, rfl,
   (construct_requires_caches trivialCollab cfgNoCaches [("dummy", mObj0)] rfl).1 rfl⟩

lemma flatMap_congr_mem {α β : Type} :
    ∀ (l : List α) (f g : α → List β), (∀ a ∈ l, f a = g a) →
    l.flatMap f = l.flatMap g := by
  intro l
  induction l with
  | nil => intro f g h; rfl
  | cons x xs ih =>
    intro f g h
    simp only [List.flatMap_cons]
    rw [h x (List.mem_cons_self x xs),
      ih f g (fun a ha => h a (List.mem_cons_of_mem x ha))]

lemma filter_eq_of_ne (l : List (String × MetricObj)) (t u : Option String)
    (hne : u ≠ t) :
    l.filter (fun p => p.2.inference_type == u)
      = (l.filter (fun p => !(p.2.inference_type == t))).filter
          (fun p => p.2.inference_type == u) := by
  rw [List.filter_filter]
  apply List.filter_congr
  intro p _
  by_cases hp : p.2.inference_type = u
  · have h2 : (p.2.inference_type == t) = false := by
      rw [hp]
      simp only [beq_eq_false_iff_ne, ne_eq]
      exact hne
    simp [hp, h2]
    exact hne
  · simp [hp]

lemma flatMap_filter_perm :
    ∀ (ts : List (Option String)) (l : List (String × MetricObj)),
    ts.Nodup → (∀ p ∈ l, p.2.inference_type ∈ ts) →
    (ts.flatMap (fun t => l.filter (fun p => p.2.inference_type == t))).Perm l := by
  intro ts
  induction ts with
  | nil =>
    intro l _ hcov
    have hnil : l = [] := by
      cases l with
      | nil => rfl
      | cons a l2 => exact absurd (hcov a (List.mem_cons_self a l2)) (List.not_mem_nil _)
    subst hnil
    simp
  | cons t rest ih =>
    intro l hnd hcov
    rcases List.nodup_cons.mp hnd with ⟨hnt, hnd2⟩
    simp only [List.flatMap_cons]
    have heq : rest.flatMap (fun u => l.filter (fun p => p.2.inference_type == u))
        = rest.flatMap (fun u =>
            (l.filter (fun p => !(p.2.inference_type == t))).filter
              (fun p => p.2.inference_type == u)) := by
      apply flatMap_congr_mem
      intro u hu
      exact filter_eq_of_ne l t u (fun h => hnt (h ▸ hu))
    rw [heq]
    have hperm2 : (rest.flatMap (fun u =>
        (l.filter (fun p => !(p.2.inference_type == t))).filter
          (fun p => p.2.inference_type == u))).Perm
        (l.filter (fun p => !(p.2.inference_type == t))) := by
      apply ih _ hnd2
      intro p hp
      rcases List.mem_filter.mp hp with ⟨hpl, hpt⟩
      rcases List.mem_cons.mp (hcov p hpl) with h | h
      · exfalso
        rw [h] at hpt
        simp at hpt
      · exact h
    exact List.Perm.trans (List.Perm.append_left _ hperm2) (List.filter_append_perm _ l)

lemma buildMetrics_ok_names (registry : String → Option MetricObj) :
    ∀ (ns : List String) (ms : List (String × MetricObj)),
    buildMetrics registry ns = .ok ms → ms.map Prod.fst = ns := by
  intro ns
  induction ns with
  | nil =>
    intro ms h
    simp only [buildMetrics, Except.ok.injEq] at h
    rw [← h]
    rfl
  | cons n rest ih =>
    intro ms h
    unfold buildMetrics at h
    cases hr : registry n with
    | none => rw [hr] at h; simp at h
    | some obj =>
      rw [hr] at h
      dsimp only at h
      cases hb : buildMetrics registry rest with
      | error e => rw [hb] at h; simp at h
      | ok ms2 =>
        rw [hb] at h
        simp only [Except.ok.injEq] at h
        rw [← h]
        simp only [List.map_cons]
        rw [ih ms2 hb]

lemma constructExperiment_ok (C : Collab) (cfg : MetricConfigL) {st : ExpState}
    {w : Bool} (h : constructExperiment C cfg = (.ok st, w)) :
    ∃ ms dsc mdc ds3,
      buildMetrics C.registry cfg.metrics.dedup = .ok ms
      ∧ cfg.caches ≠ none
      ∧ st = mkState C cfg ms dsc mdc ds3 := by
  unfold constructExperiment at h
  split at h
  · simp at h
  · rename_i ms hbm
    split at h
    · simp at h
    · rename_i cc hrc
      split at h
      · simp at h
      · rename_i cacheDir hra
        split at h
        · simp at h
        · rename_i ds2 hpt
          split at h
          · simp at h
          · rename_i ds3 w2 hsub
            simp only [Prod.mk.injEq, Except.ok.injEq] at h
            refine ⟨ms, cc.1, cc.2, ds3, hbm, ?_, h.1.symm⟩
            intro hnone
            rw [hnone] at hrc
            simp only [resolveCaches, Except.ok.injEq] at hrc
            rw [← hrc] at hra
            simp [readAttr] at hra

lemma perform_inference_no_saved (C : Collab) (st : ExpState) (t : Option String)
    (pth : String) : Event.saved pth ∉ (perform_inference C st t).2 := by
  rcases t with _ | s
  · simp [perform_inference_none]
  · by_cases hf : s = "features"
    · subst hf
      cases hmc : st.model_cache with
      | none => simp [perform_inference_features_err C st hmc]
      | some c => simp [perform_inference_features C st c hmc]
    · by_cases hm : s = "model"
      · subst hm
        cases hmc : st.model_cache with
        | none => simp [perform_inference_model_err C st hmc]
        | some c => simp [perform_inference_model C st c hmc]
      · simp [perform_inference_unsupported C st s hf hm]

lemma runStep_no_saved (C : Collab) (st : ExpState) (t : Option String)
    (res : Results) (pth : String) : Event.saved pth ∉ (runStep C st t res).2 := by
  unfold runStep
  split
  · rename_i e ev heq
    intro hmem
    have hns := perform_inference_no_saved C st t pth
    rw [heq] at hns
    exact hns hmem
  · rename_i art ev heq
    intro hmem
    dsimp only at hmem
    rcases List.mem_append.mp hmem with h | h
    · have hns := perform_inference_no_saved C st t pth
      rw [heq] at hns
      exact hns h
    · rcases List.mem_map.mp h with ⟨p, _, hp⟩
      exact Event.noConfusion hp

lemma runLoop_no_saved (C : Collab) (st : ExpState) :
    ∀ (ts : List (Option String)) (res : Results) (pth : String),
    Event.saved pth ∉ (runLoop C st ts res).2 := by
  intro ts
  induction ts with
  | nil => intro res pth; simp [runLoop]
  | cons t rest ih =>
    intro res pth
    rw [runLoop_cons_eq]
    split
    · rename_i e ev heq
      intro hmem
      have hns := runStep_no_saved C st t res pth
      rw [heq] at hns
      exact hns hmem
    · rename_i res1 ev heq
      split
      rename_i out ev2 heq2
      intro hmem
      dsimp only at hmem
      rcases List.mem_append.mp hmem with h | h
      · have hns := runStep_no_saved C st t res pth
        rw [heq] at hns
        exact hns h
      · have hns := ih res1 pth
        rw [heq2] at hns
        exact hns h

/-- C9: the results record is created at construction as a copy of the run
configuration with empty `inference_times` and `metric_scores`; a successful
run leaves the configuration copy unchanged and grows the record additively:
the `inference_times` keys are exactly the distinct inference types and the
`metric_scores` keys are exactly the metric names (one entry each); the run
itself persists nothing, and `run_config` emits exactly one save event, after
all run events, when `local_save` is set. -/
theorem results_record_lifecycle (C : Collab) (cfg : MetricConfigL)
    (st st1 : ExpState) (w : Bool) (tr : List Event)
    (hc : constructExperiment C cfg = (.ok st, w))
    (hr : run_experiment C st = (.ok st1, tr)) :
    st.results = { config := cfg, inference_times := [], metric_scores := [] }
    ∧ st1.results.config = cfg
    ∧ st1.results.inference_times.map Prod.fst = st.inference_types
    ∧ st.inference_types.Nodup
    ∧ (st1.results.metric_scores.map Prod.fst).Perm (st.metrics.map Prod.fst)
    ∧ (st.metrics.map Prod.fst).Nodup
    ∧ (∀ pth, Event.saved pth ∉ tr)
    ∧ (run_config C cfg).2.2
        = tr ++ (if cfg.local_save then [Event.saved st1.save_path] else [])
             ++ (if cfg.use_wandb then [Event.wandbLogged] else []) := by
  obtain ⟨ms, dsc, mdc, ds3, hbm, hnn, hstate⟩ := constructExperiment_ok C cfg hc
  have hrok : (run_experiment C st).1 = .ok st1 := by rw [hr]
  obtain ⟨res2, hloop, hst1⟩ := run_experiment_ok C st hrok
  have hchar := runLoop_ok C st st.inference_types st.results hloop
  have hres0 : st.results = { config := cfg, inference_times := [], metric_scores := [] } := by
    rw [hstate]; rfl
  have hinv2 : st.inference_types
      = (st.metrics.map (fun p => p.2.inference_type)).dedup := by
    rw [hstate]; rfl
  have hnames : st.metrics.map Prod.fst = cfg.metrics.dedup := by
    rw [hstate]
    exact buildMetrics_ok_names C.registry cfg.metrics.dedup ms hbm
  have hst1res : st1.results = res2 := by rw [hst1]
  have htnd : st.inference_types.Nodup := by
    rw [hinv2]
    exact List.nodup_dedup _
  have htr : (runLoop C st st.inference_types st.results).2 = tr := by
    rw [← run_experiment_trace, hr]
  refine ⟨hres0, ?_, ?_, htnd, ?_, ?_, ?_, ?_⟩
  · simp [hst1res, hchar, hres0]
  · simp [hst1res, hchar, hres0, List.map_map]
    have hmapid : (st.inference_types.map
        (Prod.fst ∘ fun t => (t, C.inferenceTime t))) = st.inference_types := by
      have heta : (Prod.fst ∘ fun t : Option String => (t, C.inferenceTime t)) = id := by
        funext t; rfl
      rw [heta, List.map_id]
    simpa [List.map_map] using hmapid
  · rw [hst1res, hchar, hres0]
    simp only [List.nil_append]
    have hcast : (st.inference_types.flatMap (fun t =>
        (groupFor st t).map (scoreEntry C st (sharedArtifact C st t)))).map Prod.fst
        = (st.inference_types.flatMap (fun t => groupFor st t)).map Prod.fst := by
      rw [List.map_flatMap, List.map_flatMap]
      apply flatMap_congr_mem
      intro t _
      rw [List.map_map]
      rfl
    rw [hcast]
    refine List.Perm.map Prod.fst ?_
    exact flatMap_filter_perm st.inference_types st.metrics htnd
      (fun p hp => by rw [hinv2, List.mem_dedup]; exact List.mem_map_of_mem _ hp)
  · rw [hnames]
    exact List.nodup_dedup _
  · intro pth
    rw [← htr]
    exact runLoop_no_saved C st st.inference_types st.results pth
  · unfold run_config
    cases hcache : cfg.caches with
    | none => exact absurd hcache hnn
    | some d =>
      dsimp only
      rw [hc]
      dsimp only
      rw [hr]

set_option maxRecDepth 8000 in
/-- Witness for C9: the full pipeline on the concrete configuration. -/
theorem results_record_lifecycle_witness :
    constructExperiment trivialCollab cfg0 = (.ok st9, false)
    ∧ run_experiment trivialCollab st9 = (.ok st9r, [Event.scored "dummy"])
    ∧ (st9.results = { config := cfg0, inference_times := [], metric_scores := [] }
      ∧ st9r.results.config = cfg0
      ∧ st9r.results.inference_times.map Prod.fst = st9.inference_types
      ∧ st9.inference_types.Nodup
      ∧ (st9r.results.metric_scores.map Prod.fst).Perm (st9.metrics.map Prod.fst)
      ∧ (st9.metrics.map Prod.fst).Nodup
      ∧ (∀ pth, Event.saved pth ∉ [Event.scored "dummy"])
      ∧ (run_config trivialCollab cfg0).2.2
          = [Event.scored "dummy"]
              ++ (if cfg0.local_save then [Event.saved st9r.save_path] else [])
              ++ (if cfg0.use_wandb then [Event.wandbLogged] else [])) :=
  ⟨rfl, rfl,
   results_record_lifecycle trivialCollab cfg0 st9 st9r false
     [Event.scored "dummy"] rfl rfl⟩
